import Mathlib

/-!
Verification of the nl2sql conversational query-context pipeline
(`src/nl2sql/nl2sql.py`), shallowly embedded in Lean 4.

Strings that flow through `urllib.parse.quote_plus` are modelled at the
byte level (`List Nat`, each element `< 256`, the UTF-8 bytes of the
Python string); everything else uses Lean `String`.
-/

namespace NL2SQL

/-! ## Percent-encoding (`urllib.parse.quote_plus` / `unquote_plus`) -/

/-- A byte is kept verbatim by `quote_plus`: Python's always-safe set is
ASCII letters, digits, and `_` `.` `-` `~`. -/
def isSafeByte (b : Nat) : Bool :=
  (decide (48 ≤ b) && decide (b ≤ 57)) ||
  (decide (65 ≤ b) && decide (b ≤ 90)) ||
  (decide (97 ≤ b) && decide (b ≤ 122)) ||
  decide (b = 95) || decide (b = 46) || decide (b = 45) || decide (b = 126)

/-- Uppercase hex digit (as an ASCII code) of a value `< 16`. -/
def hexUpper (d : Nat) : Nat :=
  if d < 10 then 48 + d else 55 + d

/-- `quote_plus` encoding of a single byte: safe bytes stay, the space
byte becomes `+` (43), everything else becomes `%XX`. -/
def encodeByte (b : Nat) : List Nat :=
  if isSafeByte b then [b]
  else if b = 32 then [43]
  else [37, hexUpper (b / 16), hexUpper (b % 16)]

/-- `urllib.parse.quote_plus` over the UTF-8 bytes of a string. -/
def quote_plus (s : List Nat) : List Nat :=
  s.flatMap encodeByte

/-- Value of an ASCII hex digit, accepting both cases, as in
`urllib.parse.unquote`. -/
def hexVal (c : Nat) : Option Nat :=
  if 48 ≤ c ∧ c ≤ 57 then some (c - 48)
  else if 65 ≤ c ∧ c ≤ 70 then some (c - 55)
  else if 97 ≤ c ∧ c ≤ 102 then some (c - 87)
  else none

/-- `urllib.parse.unquote_plus`: `+` decodes to space, `%` followed by two
hex digits decodes to the corresponding byte, anything else (including a
`%` not followed by two hex digits) passes through verbatim. -/
def unquote_plus : List Nat → List Nat
  | [] => []
  | [c] => if c = 43 then [32] else [c]
  | [c, d] =>
    if c = 43 then 32 :: unquote_plus [d]
    else c :: unquote_plus [d]
  | c :: h :: l :: rest =>
    if c = 43 then 32 :: unquote_plus (h :: l :: rest)
    else if c = 37 then
      match hexVal h, hexVal l with
      | some a, some b => (16 * a + b) :: unquote_plus rest
      | _, _ => c :: unquote_plus (h :: l :: rest)
    else c :: unquote_plus (h :: l :: rest)

theorem unquote_plus_cons_other (c : Nat) (rest : List Nat)
    (h1 : c ≠ 43) (h2 : c ≠ 37) :
    unquote_plus (c :: rest) = c :: unquote_plus rest := by
  match rest with
  | [] => simp [unquote_plus, h1]
  | [d] => simp [unquote_plus, h1]
  | h :: l :: t => simp [unquote_plus, h1, h2]

theorem unquote_plus_cons_plus (rest : List Nat) :
    unquote_plus (43 :: rest) = 32 :: unquote_plus rest := by
  match rest with
  | [] => simp [unquote_plus]
  | [d] => simp [unquote_plus]
  | h :: l :: t => simp [unquote_plus]

theorem unquote_plus_cons_percent (h l : Nat) (a b : Nat) (rest : List Nat)
    (hh : hexVal h = some a) (hl : hexVal l = some b) :
    unquote_plus (37 :: h :: l :: rest) = (16 * a + b) :: unquote_plus rest := by
  simp [unquote_plus, hh, hl]

theorem hexVal_hexUpper (d : Nat) (hd : d < 16) :
    hexVal (hexUpper d) = some d := by
  interval_cases d <;> rfl

theorem safeByte_ne (b : Nat) (hs : isSafeByte b = true) : b ≠ 43 ∧ b ≠ 37 := by
  simp [isSafeByte] at hs
  omega

/-- Decoding inverts encoding byte by byte. -/
theorem unquote_encode (b : Nat) (hb : b < 256) (rest : List Nat) :
    unquote_plus (encodeByte b ++ rest) = b :: unquote_plus rest := by
  unfold encodeByte
  by_cases hs : isSafeByte b = true
  · obtain ⟨h1, h2⟩ := safeByte_ne b hs
    simp only [hs, if_true, List.cons_append, List.nil_append]
    exact unquote_plus_cons_other b rest h1 h2
  · simp only [hs, if_false, Bool.false_eq_true]
    by_cases h32 : b = 32
    · subst h32
      simp only [if_true, List.cons_append, List.nil_append]
      exact unquote_plus_cons_plus rest
    · simp only [h32, if_false, List.cons_append, List.nil_append]
      have hdiv : b / 16 < 16 := by omega
      have hmod : b % 16 < 16 := Nat.mod_lt _ (by omega)
      rw [unquote_plus_cons_percent _ _ (b / 16) (b % 16) rest
        (hexVal_hexUpper _ hdiv) (hexVal_hexUpper _ hmod)]
      rw [Nat.div_add_mod b 16]

/-- `unquote_plus` is a left inverse of `quote_plus` on byte strings. -/
theorem unquote_quote_roundtrip (s : List Nat) (hs : ∀ b ∈ s, b < 256) :
    unquote_plus (quote_plus s) = s := by
  induction s with
  | nil => simp [quote_plus, unquote_plus]
  | cons b t ih =>
    have hb : b < 256 := hs b (List.mem_cons_self b t)
    have ht : ∀ x ∈ t, x < 256 := fun x hx => hs x (List.mem_cons_of_mem _ hx)
    simp only [quote_plus, List.flatMap_cons]
    rw [show t.flatMap encodeByte = quote_plus t from rfl,
      unquote_encode b hb (quote_plus t), ih ht]

theorem hexUpper_no_delim (d : Nat) : hexUpper d ≠ 64 ∧ hexUpper d ≠ 58 := by
  unfold hexUpper
  split <;> omega

/-- No byte produced by `encodeByte` is `@` (64) or `:` (58). -/
theorem encodeByte_no_delim (b : Nat) :
    ∀ c ∈ encodeByte b, c ≠ 64 ∧ c ≠ 58 := by
  intro c hc
  unfold encodeByte at hc
  by_cases hs : isSafeByte b = true
  · simp only [hs, if_true, List.mem_singleton] at hc
    subst hc
    simp [isSafeByte] at hs
    omega
  · simp only [hs, if_false, Bool.false_eq_true] at hc
    by_cases h32 : b = 32
    · simp only [h32, if_true, List.mem_singleton] at hc
      omega
    · simp only [h32, if_false, List.mem_cons, List.not_mem_nil, or_false] at hc
      rcases hc with rfl | rfl | rfl
      · omega
      · exact hexUpper_no_delim _
      · exact hexUpper_no_delim _

theorem quote_plus_no_delim (s : List Nat) :
    ∀ c ∈ quote_plus s, c ≠ 64 ∧ c ≠ 58 := by
  intro c hc
  simp only [quote_plus, List.mem_flatMap] at hc
  obtain ⟨b, _, hcb⟩ := hc
  exact encodeByte_no_delim b c hcb

/-! ## Connection Builder (`create_connection_string`) -/

/-- UTF-8 bytes of the literal `"redshift://"`. -/
def schemeBytes : List Nat :=
  [114, 101, 100, 115, 104, 105, 102, 116, 58, 47, 47]

/-- Decimal digits of `port` as ASCII bytes (the f-string rendering of a
Python `int`). -/
def natToDec (n : Nat) : List Nat :=
  (Nat.toDigits 10 n).map Char.toNat

/-- `create_connection_string`: builds
`redshift://{quote_plus(user)}:{quote_plus(password)}@{host}:{port}/{dbname}`
over UTF-8 bytes. -/
def create_connection_string (host : List Nat) (port : Nat)
    (dbname user password : List Nat) : List Nat :=
  schemeBytes ++ quote_plus user ++ [58] ++ quote_plus password ++ [64] ++
    host ++ [58] ++ natToDec port ++ [47] ++ dbname

/-- The userinfo portion of a built connection string: what stands between
the `"redshift://"` prefix and the first `@`. -/
def userinfo (s : List Nat) : List Nat :=
  (s.drop 11).takeWhile (fun c => !decide (c = 64))

/-- The user component of a userinfo string: up to the first `:`. -/
def userPart (ui : List Nat) : List Nat :=
  ui.takeWhile (fun c => !decide (c = 58))

/-- The password component of a userinfo string: after the first `:`. -/
def passPart (ui : List Nat) : List Nat :=
  (ui.dropWhile (fun c => !decide (c = 58))).drop 1

theorem takeWhile_append_all {α : Type} (p : α → Bool) (l1 l2 : List α)
    (h : ∀ x ∈ l1, p x = true) :
    (l1 ++ l2).takeWhile p = l1 ++ l2.takeWhile p := by
  induction l1 with
  | nil => simp
  | cons a t ih =>
    have ha : p a = true := h a (List.mem_cons_self a t)
    simp only [List.cons_append, List.takeWhile_cons, ha, if_true]
    rw [ih (fun x hx => h x (List.mem_cons_of_mem _ hx))]

theorem dropWhile_append_all {α : Type} (p : α → Bool) (l1 l2 : List α)
    (h : ∀ x ∈ l1, p x = true) :
    (l1 ++ l2).dropWhile p = l2.dropWhile p := by
  induction l1 with
  | nil => simp
  | cons a t ih =>
    have ha : p a = true := h a (List.mem_cons_self a t)
    simp only [List.cons_append, List.dropWhile_cons, ha, if_true]
    exact ih (fun x hx => h x (List.mem_cons_of_mem _ hx))

theorem userinfo_of_built (host : List Nat) (port : Nat)
    (dbname user password : List Nat) :
    userinfo (create_connection_string host port dbname user password) =
      quote_plus user ++ [58] ++ quote_plus password := by
  unfold userinfo create_connection_string
  have hlen : schemeBytes.length = 11 := rfl
  rw [show schemeBytes ++ quote_plus user ++ [58] ++ quote_plus password ++ [64] ++
      host ++ [58] ++ natToDec port ++ [47] ++ dbname =
      schemeBytes ++ (quote_plus user ++ [58] ++ quote_plus password ++
        ([64] ++ (host ++ [58] ++ natToDec port ++ [47] ++ dbname))) by
    simp [List.append_assoc]]
  rw [← hlen, List.drop_left]
  rw [show quote_plus user ++ [58] ++ quote_plus password ++
      ([64] ++ (host ++ [58] ++ natToDec port ++ [47] ++ dbname)) =
      (quote_plus user ++ [58] ++ quote_plus password) ++
      ([64] ++ (host ++ [58] ++ natToDec port ++ [47] ++ dbname)) by
    simp [List.append_assoc]]
  rw [takeWhile_append_all _ _ _ ?_]
  · simp [List.takeWhile_cons]
  · intro x hx
    simp only [List.append_assoc, List.mem_append, List.mem_singleton] at hx
    rcases hx with h | h | h
    · exact by simpa using (quote_plus_no_delim user x h).1
    · subst h; decide
    · exact by simpa using (quote_plus_no_delim password x h).1

theorem userPart_of_userinfo (user password : List Nat) :
    userPart (quote_plus user ++ [58] ++ quote_plus password) =
      quote_plus user := by
  unfold userPart
  rw [List.append_assoc, takeWhile_append_all _ _ _ ?_]
  · simp [List.takeWhile_cons]
  · intro x hx
    exact by simpa using (quote_plus_no_delim user x hx).2

theorem passPart_of_userinfo (user password : List Nat) :
    passPart (quote_plus user ++ [58] ++ quote_plus password) =
      quote_plus password := by
  unfold passPart
  rw [List.append_assoc, dropWhile_append_all _ _ _ ?_]
  · simp [List.dropWhile_cons]
  · intro x hx
    exact by simpa using (quote_plus_no_delim user x hx).2

end NL2SQL

/-- C1: for every host, port, dbname, user and password (user and password
arbitrary byte strings, in particular containing `@`, `:` or `/`),
URL-decoding the user and password components of the userinfo of the
string built by `create_connection_string` yields the original user and
password. -/
theorem C1_connection_string_roundtrip (host : List Nat) (port : Nat)
    (dbname user password : List Nat)
    (hu : ∀ b ∈ user, b < 256) (hp : ∀ b ∈ password, b < 256) :
    NL2SQL.unquote_plus (NL2SQL.userPart (NL2SQL.userinfo
      (NL2SQL.create_connection_string host port dbname user password))) = user ∧
    NL2SQL.unquote_plus (NL2SQL.passPart (NL2SQL.userinfo
      (NL2SQL.create_connection_string host port dbname user password))) = password := by
  rw [NL2SQL.userinfo_of_built, NL2SQL.userPart_of_userinfo,
    NL2SQL.passPart_of_userinfo]
  exact ⟨NL2SQL.unquote_quote_roundtrip user hu,
    NL2SQL.unquote_quote_roundtrip password hp⟩

/-- C1 witness: a concrete credential pair containing `@`, `:` and `/`
(user `"a@b"`, password `"p:/"`) round-trips through the built string. -/
theorem C1_connection_string_roundtrip_witness :
    NL2SQL.unquote_plus (NL2SQL.userPart (NL2SQL.userinfo
      (NL2SQL.create_connection_string [104] 5439 [100]
        [97, 64, 98] [112, 58, 47]))) = [97, 64, 98] ∧
    NL2SQL.unquote_plus (NL2SQL.passPart (NL2SQL.userinfo
      (NL2SQL.create_connection_string [104] 5439 [100]
        [97, 64, 98] [112, 58, 47]))) = [112, 58, 47] :=
  C1_connection_string_roundtrip [104] 5439 [100] [97, 64, 98] [112, 58, 47]
    (by decide) (by decide)

namespace NL2SQL

/-! ## Query History (`collections.deque(maxlen=10)` in `main`) -/

/-- One entry of the Query History: `{"user": query_str}`, with a
`"generated"` field attached after a successful generation. -/
structure HistoryEntry where
  user : String
  generated : Option String
deriving DecidableEq, Repr

/-- `collections.deque(maxlen := m).append e`: the new element joins on
the right; when the deque is over capacity, elements fall off the left. -/
def dequeAppend (m : Nat) (h : List HistoryEntry) (e : HistoryEntry) :
    List HistoryEntry :=
  if m < (h ++ [e]).length then (h ++ [e]).drop ((h ++ [e]).length - m)
  else h ++ [e]

/-- `query_history.append({"user": query_str})` with `maxlen = 10`. -/
def queryHistoryAppend (h : List HistoryEntry) (e : HistoryEntry) :
    List HistoryEntry :=
  dequeAppend 10 h e

theorem queryHistoryAppend_eq_drop (h : List HistoryEntry) (e : HistoryEntry) :
    ∃ k, k ≤ h.length ∧ queryHistoryAppend h e = h.drop k ++ [e] := by
  unfold queryHistoryAppend dequeAppend
  simp only [List.length_append, List.length_singleton]
  split
  · rename_i hlt
    refine ⟨h.length + 1 - 10, by omega, ?_⟩
    rw [List.drop_append_of_le_length (by omega)]
  · exact ⟨0, Nat.zero_le _, by simp⟩

/-- `query_history[-1]["generated"] = sql`: mutate the last entry of the
history in place, leaving every other entry untouched. -/
def attachToLast : List HistoryEntry → String → List HistoryEntry
  | [], _ => []
  | [e], sql => [{ e with generated := some sql }]
  | e :: rest, sql => e :: attachToLast rest sql

theorem attachToLast_concat (l : List HistoryEntry) (e : HistoryEntry)
    (sql : String) :
    attachToLast (l ++ [e]) sql = l ++ [{ e with generated := some sql }] := by
  induction l with
  | nil => rfl
  | cons a t ih =>
    cases t with
    | nil => rfl
    | cons b t2 =>
      calc attachToLast ((a :: b :: t2) ++ [e]) sql
          = a :: attachToLast ((b :: t2) ++ [e]) sql := rfl
        _ = a :: ((b :: t2) ++ [{ e with generated := some sql }]) := by rw [ih]
        _ = (a :: b :: t2) ++ [{ e with generated := some sql }] := rfl

/-- One turn of `main`'s run block: append the question to the Query
History, run generation, and either report the error inline (leaving the
history as appended) or attach the generated SQL to the most recent
entry. -/
def runTurn (h : List HistoryEntry) (q : String)
    (gen : Except String String) : List HistoryEntry :=
  let h2 := queryHistoryAppend h { user := q, generated := none }
  match gen with
  | .error _ => h2
  | .ok sql => attachToLast h2 sql

end NL2SQL

/-- C2: appending to the Query History preserves the bound `length ≤ 10`,
and appending an 11th question evicts the oldest entry first (FIFO). -/
theorem C2_history_bound (h : List NL2SQL.HistoryEntry)
    (e : NL2SQL.HistoryEntry) (hb : h.length ≤ 10) :
    (NL2SQL.queryHistoryAppend h e).length ≤ 10 ∧
    (h.length = 10 → NL2SQL.queryHistoryAppend h e = h.drop 1 ++ [e]) := by
  constructor
  · unfold NL2SQL.queryHistoryAppend NL2SQL.dequeAppend
    split
    · simp only [List.length_drop]
      omega
    · rename_i hge
      simp only [List.length_append, List.length_singleton] at hge ⊢
      omega
  · intro h10
    unfold NL2SQL.queryHistoryAppend NL2SQL.dequeAppend
    have hlt : 10 < (h ++ [e]).length := by
      simp [List.length_append, h10]
    rw [if_pos hlt]
    have : (h ++ [e]).length - 10 = 1 := by
      simp [List.length_append, h10]
    rw [this, List.drop_append_of_le_length (by omega)]

/-- C2 witness: appending an 11th question to a full history of 10 keeps
the length at 10 and evicts the oldest entry. -/
theorem C2_history_bound_witness :
    (NL2SQL.queryHistoryAppend
      (List.replicate 10 ⟨"q", none⟩) ⟨"new", none⟩).length ≤ 10 ∧
    ((List.replicate 10 (⟨"q", none⟩ : NL2SQL.HistoryEntry)).length = 10 →
      NL2SQL.queryHistoryAppend (List.replicate 10 ⟨"q", none⟩) ⟨"new", none⟩ =
        (List.replicate 10 (⟨"q", none⟩ : NL2SQL.HistoryEntry)).drop 1 ++
          [⟨"new", none⟩]) :=
  C2_history_bound (List.replicate 10 ⟨"q", none⟩) ⟨"new", none⟩ (by decide)

namespace NL2SQL

theorem getLast_queryHistoryAppend (h : List HistoryEntry) (e : HistoryEntry) :
    (queryHistoryAppend h e).getLast? = some e := by
  obtain ⟨k, _, heq⟩ := queryHistoryAppend_eq_drop h e
  rw [heq, List.getLast?_concat]

end NL2SQL

/-- C6: on a generation error the current turn's history entry is left
without an attached SQL result; on success the generated SQL is attached
to the most recent entry only — every other entry is untouched. -/
theorem C6_generation_error_history (h : List NL2SQL.HistoryEntry)
    (q msg sql : String) :
    NL2SQL.runTurn h q (.error msg) =
      NL2SQL.queryHistoryAppend h ⟨q, none⟩ ∧
    (NL2SQL.runTurn h q (.error msg)).getLast? = some ⟨q, none⟩ ∧
    (NL2SQL.runTurn h q (.ok sql)).dropLast =
      (NL2SQL.queryHistoryAppend h ⟨q, none⟩).dropLast ∧
    (NL2SQL.runTurn h q (.ok sql)).getLast? = some ⟨q, some sql⟩ := by
  refine ⟨rfl, NL2SQL.getLast_queryHistoryAppend h _, ?_, ?_⟩
  · show (NL2SQL.attachToLast (NL2SQL.queryHistoryAppend h ⟨q, none⟩)
      sql).dropLast = _
    obtain ⟨k, _, heq⟩ := NL2SQL.queryHistoryAppend_eq_drop h ⟨q, none⟩
    rw [heq, NL2SQL.attachToLast_concat, List.dropLast_concat,
      List.dropLast_concat]
  · show (NL2SQL.attachToLast (NL2SQL.queryHistoryAppend h ⟨q, none⟩)
      sql).getLast? = _
    obtain ⟨k, _, heq⟩ := NL2SQL.queryHistoryAppend_eq_drop h ⟨q, none⟩
    rw [heq, NL2SQL.attachToLast_concat, List.getLast?_concat]

namespace NL2SQL

/-! ## Condensation (`SummaryBuilder.build_summary` + `.strip()`) -/

/-- Modelled from the spec: `SummaryBuilder.build_summary` (imported from
the repository module `requests_summary`, whose sources are not present
here) collapses the ordered user-question sequence into one condensed
question string — a pure, deterministic function of the ordered question
list which returns a single-entry sequence's question verbatim. -/
def build_summary : List String → String
  | [] => ""
  | [q] => q
  | q :: rest => q ++ "\n" ++ build_summary rest

/-- Python's `str.strip()`: drop leading and trailing whitespace. -/
def pyStrip (s : String) : String :=
  String.mk (((s.data.dropWhile Char.isWhitespace).reverse.dropWhile
    Char.isWhitespace).reverse)

/-- The condensation step of `main`:
`SummaryBuilder.build_summary(map(lambda x: x["user"], query_history))`
followed by `.strip()`. -/
def condensedQuery (history : List HistoryEntry) : String :=
  pyStrip (build_summary (history.map HistoryEntry.user))

end NL2SQL

/-- C3: the condensation step is a pure function of the ordered
user-question list: two histories carrying the same ordered questions
(regardless of the attached SQL results) condense to the identical
string. -/
theorem C3_condensation_deterministic (h1 h2 : List NL2SQL.HistoryEntry)
    (hsame : h1.map NL2SQL.HistoryEntry.user =
      h2.map NL2SQL.HistoryEntry.user) :
    NL2SQL.condensedQuery h1 = NL2SQL.condensedQuery h2 := by
  unfold NL2SQL.condensedQuery
  rw [hsame]

/-- C3 witness: two histories with the same questions but different
attached SQL condense identically. -/
theorem C3_condensation_deterministic_witness :
    ([⟨"a", none⟩, ⟨"b", some "SELECT 1"⟩] : List NL2SQL.HistoryEntry).map
        NL2SQL.HistoryEntry.user =
      ([⟨"a", some "SELECT 2"⟩, ⟨"b", none⟩] :
        List NL2SQL.HistoryEntry).map NL2SQL.HistoryEntry.user ∧
    NL2SQL.condensedQuery [⟨"a", none⟩, ⟨"b", some "SELECT 1"⟩] =
      NL2SQL.condensedQuery [⟨"a", some "SELECT 2"⟩, ⟨"b", none⟩] :=
  ⟨rfl, C3_condensation_deterministic _ _ rfl⟩

/-- C8: a single-entry history condenses to that single entry verbatim
(for an entry with no surrounding whitespace, since `.strip()` is applied
to the summary). -/
theorem C8_single_entry_verbatim (q : String) (g : Option String)
    (hq : NL2SQL.pyStrip q = q) :
    NL2SQL.condensedQuery [⟨q, g⟩] = q := by
  show NL2SQL.pyStrip (NL2SQL.build_summary [q]) = q
  rw [show NL2SQL.build_summary [q] = q from rfl, hq]

/-- C8 witness: the end-to-end scenario's single question condenses to
itself. -/
theorem C8_single_entry_verbatim_witness :
    NL2SQL.pyStrip "show total sales by region" =
      "show total sales by region" ∧
    NL2SQL.condensedQuery [⟨"show total sales by region", none⟩] =
      "show total sales by region" :=
  ⟨by decide, C8_single_entry_verbatim _ none (by decide)⟩

namespace NL2SQL

/-! ## Context-container cache key (`st.cache_resource` on
`build_sql_context_container` with `cache_invalidation_triggers`) -/

/-- The grounding payload handed to SQL generation: table identifiers
mapped to schema excerpts plus the combined context string
(`SQLContextContainer` of llama_index). -/
structure SQLContextContainer where
  context_dict : List (String × String)
  context_str : String
deriving DecidableEq, Repr

/-- The cache key of a `build_sql_context_container` call: all
non-underscore arguments, i.e. `query_str` plus every entry of
`cache_invalidation_triggers` (including the metadata toggle and text
added before the call). -/
structure ContextCacheKey where
  query_str : String
  connection_string : String
  openai_api_key : String
  model_name : String
  schema : String
  dbt_sources_yaml_toggle : Bool
  dbt_sources_yaml_str : String
deriving DecidableEq, Repr

/-- Keyed lookup in the process-wide cache. -/
def cacheLookup (cache : List (ContextCacheKey × SQLContextContainer))
    (k : ContextCacheKey) : Option SQLContextContainer :=
  (cache.find? (fun p => decide (p.1 = k))).map Prod.snd

/-- `st.cache_resource` call semantics: return the cached value when the
key hits, otherwise the freshly built one. -/
def cacheGetOrBuild (cache : List (ContextCacheKey × SQLContextContainer))
    (k : ContextCacheKey) (fresh : SQLContextContainer) :
    SQLContextContainer :=
  match cacheLookup cache k with
  | some v => v
  | none => fresh

end NL2SQL

/-- C4: changing any one of connection string, API key, model name,
schema, metadata toggle or metadata text (holding the rest fixed) changes
the context-container cache key, so the lookup misses and the freshly
built container is returned. -/
theorem C4_cache_key_sensitivity
    (q conn key model schema : String) (toggle : Bool) (meta : String)
    (conn2 key2 model2 schema2 : String) (toggle2 : Bool) (meta2 : String)
    (cached fresh : NL2SQL.SQLContextContainer)
    (hdiff : conn ≠ conn2 ∨ key ≠ key2 ∨ model ≠ model2 ∨
      schema ≠ schema2 ∨ toggle ≠ toggle2 ∨ meta ≠ meta2) :
    NL2SQL.ContextCacheKey.mk q conn key model schema toggle meta ≠
      NL2SQL.ContextCacheKey.mk q conn2 key2 model2 schema2 toggle2 meta2 ∧
    NL2SQL.cacheGetOrBuild
      [(NL2SQL.ContextCacheKey.mk q conn key model schema toggle meta, cached)]
      (NL2SQL.ContextCacheKey.mk q conn2 key2 model2 schema2 toggle2 meta2)
      fresh = fresh := by
  have hne : NL2SQL.ContextCacheKey.mk q conn key model schema toggle meta ≠
      NL2SQL.ContextCacheKey.mk q conn2 key2 model2 schema2 toggle2 meta2 := by
    intro heq
    rw [NL2SQL.ContextCacheKey.mk.injEq] at heq
    rcases hdiff with h | h | h | h | h | h <;> tauto
  refine ⟨hne, ?_⟩
  unfold NL2SQL.cacheGetOrBuild NL2SQL.cacheLookup
  rw [List.find?_cons_of_neg _ (by simpa using hne)]
  simp

/-- C4 witness: flipping only the metadata toggle misses the cache and
yields the fresh container. -/
theorem C4_cache_key_sensitivity_witness :
    NL2SQL.ContextCacheKey.mk "q" "c" "k" "m" "s" false "" ≠
      NL2SQL.ContextCacheKey.mk "q" "c" "k" "m" "s" true "" ∧
    NL2SQL.cacheGetOrBuild
      [(NL2SQL.ContextCacheKey.mk "q" "c" "k" "m" "s" false "", ⟨[], "old"⟩)]
      (NL2SQL.ContextCacheKey.mk "q" "c" "k" "m" "s" true "")
      ⟨[], "new"⟩ = ⟨[], "new"⟩ :=
  C4_cache_key_sensitivity "q" "c" "k" "m" "s" false "" "c" "k" "m" "s"
    true "" ⟨[], "old"⟩ ⟨[], "new"⟩ (by simp)

namespace NL2SQL

/-! ## Run gating (`main`, the condition guarding the run block) -/

/-- The guard of the run block:
`(query_str and not dbt_sources_yaml_toggle) or
 (query_str and dbt_sources_yaml_toggle and dbt_sources_yaml_str)`,
with Python string truthiness (non-empty). -/
def runCondition (query_str : String) (dbt_sources_yaml_toggle : Bool)
    (dbt_sources_yaml_str : String) : Bool :=
  (decide (query_str ≠ "") && !dbt_sources_yaml_toggle) ||
  (decide (query_str ≠ "") && dbt_sources_yaml_toggle &&
    decide (dbt_sources_yaml_str ≠ ""))

/-- One UI interaction: when the guard holds the question is appended to
the Query History and a query is issued (`true`); otherwise the history
is untouched and nothing is issued. -/
def interactionStep (h : List HistoryEntry) (q : String) (toggle : Bool)
    (meta : String) : List HistoryEntry × Bool :=
  if runCondition q toggle meta then (queryHistoryAppend h ⟨q, none⟩, true)
  else (h, false)

end NL2SQL

/-- C10: the pipeline runs exactly when the entered query is non-empty
and, with the DBT sources.yaml toggle on, the pasted metadata is also
non-empty; otherwise the history is untouched and no query is issued. -/
theorem C10_run_gating (h : List NL2SQL.HistoryEntry) (q : String)
    (toggle : Bool) (meta : String) :
    (NL2SQL.runCondition q toggle meta = true ↔
      (q ≠ "" ∧ (toggle = true → meta ≠ ""))) ∧
    (¬(q ≠ "" ∧ (toggle = true → meta ≠ "")) →
      NL2SQL.interactionStep h q toggle meta = (h, false)) ∧
    ((q ≠ "" ∧ (toggle = true → meta ≠ "")) →
      NL2SQL.interactionStep h q toggle meta =
        (NL2SQL.queryHistoryAppend h ⟨q, none⟩, true)) := by
  have hiff : NL2SQL.runCondition q toggle meta = true ↔
      (q ≠ "" ∧ (toggle = true → meta ≠ "")) := by
    unfold NL2SQL.runCondition
    cases toggle <;> simp
  refine ⟨hiff, ?_, ?_⟩
  · intro hneg
    unfold NL2SQL.interactionStep
    rw [if_neg (fun hc => hneg (hiff.mp hc))]
  · intro hpos
    unfold NL2SQL.interactionStep
    rw [if_pos (hiff.mpr hpos)]

/-- C10 witness: an empty query leaves the history untouched, while a
non-empty query with toggle on and non-empty metadata appends and runs. -/
theorem C10_run_gating_witness :
    NL2SQL.interactionStep [] "" false "" = ([], false) ∧
    NL2SQL.interactionStep [] "q" true "meta" =
      (NL2SQL.queryHistoryAppend [] ⟨"q", none⟩, true) :=
  ⟨(C10_run_gating [] "" false "").2.1 (by decide),
    (C10_run_gating [] "q" true "meta").2.2 (by decide)⟩

namespace NL2SQL

/-! ## Grounding retrieval (`build_sql_context_container` and the
composable-graph wiring in `main`) -/

/-- The indices `main` can hand to `build_sql_context_container`: the
table-schema vector index (nodes ranked by similarity to a query), the
metadata list index built from the pasted DBT sources.yaml, and the
composable graph over the two. -/
inductive EmbIndex where
  | vector (rank : String → List String)
  | list (nodes : List String)
  | graph (first second : EmbIndex)

/-- Modelled from the spec: the retrieval performed by
`SQLContextContainerBuilder.query_index_for_context` under the
`query_configs` of `build_sql_context_container` (llama_index internals,
consumed as a black box). The `simple_dict` config queries a vector index
with `similarity_top_k = 1`, keeping only the single most relevant node;
the `list` config in default mode retrieves every node of a list index;
the composable graph's list root queries both children and concatenates
their results. -/
def retrieveWithConfigs : EmbIndex → String → List String
  | .vector rank, q => (rank q).take 1
  | .list nodes, _ => nodes
  | .graph a b, q => retrieveWithConfigs a q ++ retrieveWithConfigs b q

/-- `index_to_query` in `main`: the composable graph over the table
schema index and the metadata index when the DBT sources.yaml toggle is
on, the table schema index alone otherwise. -/
def indexToQuery (toggle : Bool) (schemaIndex metadataIndex : EmbIndex) :
    EmbIndex :=
  if toggle then .graph schemaIndex metadataIndex else schemaIndex

/-- Joining the retrieved excerpts into the stored context string. -/
def joinExcerpts : List String → String
  | [] => ""
  | [s] => s
  | s :: rest => s ++ "\n" ++ joinExcerpts rest

/-- `build_sql_context_container`: query the selected index with the
condensed question under the configs, store the retrieved excerpts as the
context string, and return the built container. There is no exception
path: an empty retrieval yields a container with an empty context
string. -/
def build_sql_context_container (tableContexts : List (String × String))
    (idx : EmbIndex) (query_str : String) :
    Except String SQLContextContainer :=
  .ok { context_dict := tableContexts,
        context_str := joinExcerpts (retrieveWithConfigs idx query_str) }

end NL2SQL

/-- C5: when retrieval finds no relevant schema excerpt, the Context
Assembler still returns a well-formed container — with an empty context
string — instead of signalling an error. -/
theorem C5_empty_retrieval_ok (tc : List (String × String))
    (idx : NL2SQL.EmbIndex) (q : String)
    (hempty : NL2SQL.retrieveWithConfigs idx q = []) :
    NL2SQL.build_sql_context_container tc idx q = .ok ⟨tc, ""⟩ := by
  unfold NL2SQL.build_sql_context_container
  rw [hempty]
  rfl

/-- C5 witness: a schema index with no relevant node yields an ok
container with the empty context string. -/
theorem C5_empty_retrieval_ok_witness :
    NL2SQL.retrieveWithConfigs (.vector (fun _ => [])) "q" = [] ∧
    NL2SQL.build_sql_context_container [] (.vector (fun _ => [])) "q" =
      .ok ⟨[], ""⟩ :=
  ⟨rfl, C5_empty_retrieval_ok [] (.vector (fun _ => [])) "q" rfl⟩

/-- C7 counterexample: with the metadata toggle on, a metadata document
holding two excerpts contributes both of them — the combined retrieval is
not the top-1 most relevant item from each source. -/
theorem C7_top1_each_counterexample :
    NL2SQL.retrieveWithConfigs
      (NL2SQL.indexToQuery true (.vector (fun _ => ["s1", "s2"]))
        (.list ["m1", "m2"])) "q" = ["s1", "m1", "m2"] ∧
    (["s1", "m1", "m2"] : List String) ≠
      (["s1", "s2"].take 1 ++ ["m1", "m2"].take 1 : List String) := by
  constructor
  · rfl
  · decide

/-- C7 (amended): with a metadata document supplied, grounding queries
both the schema index and the metadata document and combines the two
result sets into one context string; the schema (vector) source is
limited to its top-1 most relevant item, while the metadata (list)
source contributes all of its excerpts. -/
theorem C7_grounding_combines (rank : String → List String)
    (m : List String) (q : String) (tc : List (String × String)) :
    NL2SQL.retrieveWithConfigs
      (NL2SQL.indexToQuery true (.vector rank) (.list m)) q =
      (rank q).take 1 ++ m ∧
    NL2SQL.build_sql_context_container tc
      (NL2SQL.indexToQuery true (.vector rank) (.list m)) q =
      .ok ⟨tc, NL2SQL.joinExcerpts ((rank q).take 1 ++ m)⟩ := by
  constructor <;>
    simp [NL2SQL.indexToQuery, NL2SQL.retrieveWithConfigs,
      NL2SQL.build_sql_context_container]

namespace NL2SQL

/-! ## Response cache (`st.cache_data(ttl=60)` on
`query_sql_structure_store` vs `st.cache_resource` elsewhere) -/

/-- The `st.cache_data(ttl=60)` cache holding final query responses:
each entry records the time it was stored and is served only while fewer
than 60 time units have elapsed. -/
def responseCacheLookup (entries : List (String × Nat × String))
    (k : String) (now : Nat) : Option String :=
  (entries.find? (fun e => decide (e.1 = k) && decide (now < e.2.1 + 60))).map
    (fun e => e.2.2)

/-- A `st.cache_resource` cache (connection, schema index, context
container): keyed lookup with no notion of age. -/
def resourceCacheLookup (entries : List (String × String)) (k : String) :
    Option String :=
  (entries.find? (fun e => decide (e.1 = k))).map Prod.snd

end NL2SQL

/-- C9: a cached final query response stops being served once 60 time
units have elapsed since it was stored (and is served before that), while
`st.cache_resource` artifacts carry no expiry at all — their lookup does
not depend on time. -/
theorem C9_response_ttl (k v : String) (stored now : Nat) :
    (stored + 60 ≤ now →
      NL2SQL.responseCacheLookup [(k, stored, v)] k now = none) ∧
    (now < stored + 60 →
      NL2SQL.responseCacheLookup [(k, stored, v)] k now = some v) ∧
    NL2SQL.resourceCacheLookup [(k, v)] k = some v := by
  refine ⟨?_, ?_, ?_⟩
  · intro hle
    unfold NL2SQL.responseCacheLookup
    have hfalse : decide (now < stored + 60) = false := by
      simp
      omega
    simp [List.find?, hfalse]
  · intro hlt
    unfold NL2SQL.responseCacheLookup
    simp [List.find?, hlt]
  · unfold NL2SQL.resourceCacheLookup
    simp [List.find?]

/-- C9 witness: a response stored at time 0 is served at time 59, not at
time 60, while a resource-cache entry is served with no age attached. -/
theorem C9_response_ttl_witness :
    NL2SQL.responseCacheLookup [("k", 0, "v")] "k" 60 = none ∧
    NL2SQL.responseCacheLookup [("k", 0, "v")] "k" 59 = some "v" ∧
    NL2SQL.resourceCacheLookup [("k", "v")] "k" = some "v" :=
  ⟨(C9_response_ttl "k" "v" 0 60).1 (by decide),
    (C9_response_ttl "k" "v" 0 59).2.1 (by decide),
    (C9_response_ttl "k" "v" 0 0).2.2⟩
